import Mathlib


/-!
Verification of the entviz schema-visualization pipeline.

The development is a shallow embedding of `entviz.go`:

* the narrow read-only view of ent's `gen.Graph` that `toJsGraph` consumes
  (`GenField`, `GenEdge`, `GenType`, `GenGraph`),
* the reduced visualization graph (`jsField`, `jsEdge`, `jsNode`, `jsGraph`)
  whose slice-valued fields are `Option (List _)` so that Go's distinction
  between a `nil` slice and a non-empty slice is preserved exactly,
* the reducer `toJsGraph` (the Go loop, written as left folds),
* a model of `encoding/json`'s `Marshal` for these struct types
  (declaration-order keys from the struct tags, `null` for nil slices, the
  default HTML-escaping string encoder), together with a JSON string-literal
  decoder used for the round-trip property,
* a model of the parsed HTML template and `Execute` (literal segments and
  the four typed substitution slots, substituted verbatim because the data
  fields are `template.CSS` / `template.JS` values),
* a model of the generation hook `VisualizeSchema` over an explicit
  file-system state, with `os.WriteFile`'s truncate-then-write behaviour
  made visible through a write-capacity oracle.
-/

/-! ## The external graph: the narrow view of ent's `gen.Graph` read by the code -/

/-- Read-only view of `gen.Field` as used by `toJsGraph`: `f.Name`,
`f.Type.String()` (stored here already rendered, `TypeString`), and
`f.Comment()`. -/
structure GenField where
  Name : String
  TypeString : String
  Comment : String
deriving DecidableEq, Repr

/-- Read-only view of `gen.Edge` as used by `toJsGraph`: `e.Name`,
`e.IsInverse()` and `e.Type.Name` (the target entity type's name). -/
structure GenEdge where
  Name : String
  IsInverse : Bool
  TypeName : String
deriving DecidableEq, Repr

/-- Read-only view of `gen.Type`: entity name, ordered fields, ordered
relationship declarations. -/
structure GenType where
  Name : String
  Fields : List GenField
  Edges : List GenEdge
deriving DecidableEq, Repr

/-- Read-only view of `gen.Graph`: the ordered entity list. -/
structure GenGraph where
  Nodes : List GenType
deriving DecidableEq, Repr

/-! ## The reduced visualization graph (`jsGraph` and friends from entviz.go)

Go slices are modelled as `Option (List _)`: `none` is a `nil` slice,
`some l` a non-nil slice with elements `l`.  `json.Marshal` distinguishes the
two (`null` versus `[...]`), and the reducer builds every slice with `append`
starting from `nil`, so the distinction is semantically relevant. -/

/-- `jsField` from entviz.go: json tags `name`, `type`, `comment`. -/
structure jsField where
  name : String
  type : String
  comment : String
deriving DecidableEq, Repr

/-- `jsEdge` from entviz.go: json tags `from`, `to`, `label`. -/
structure jsEdge where
  From : String
  To : String
  Label : String
deriving DecidableEq, Repr

/-- `jsNode` from entviz.go: json tags `id`, `fields`.  `Fields` is a Go
slice (`none` = nil). -/
structure jsNode where
  ID : String
  Fields : Option (List jsField)
deriving DecidableEq, Repr

/-- `jsGraph` from entviz.go: json tags `nodes`, `edges`; both are Go slices
(`none` = nil). -/
structure jsGraph where
  Nodes : Option (List jsNode)
  Edges : Option (List jsEdge)
deriving DecidableEq, Repr

/-- Go's `append` on a possibly-nil slice: appending to a nil slice
allocates a fresh one-element slice, so the result is never nil. -/
def goAppend (s : Option (List α)) (x : α) : Option (List α) :=
  some (s.getD [] ++ [x])

/-- The inner field loop of `toJsGraph`: `node.Fields` starts as the nil
slice and each `gen.Field` is appended as `jsField{f.Name, f.Type.String(),
f.Comment()}`. -/
def fieldsOf (n : GenType) : Option (List jsField) :=
  n.Fields.foldl (fun fs f => goAppend fs ⟨f.Name, f.TypeString, f.Comment⟩) none

/-- The inner edge loop of `toJsGraph`: inverse edges are skipped
(`continue`), every other edge appends
`jsEdge{From: n.Name, To: e.Type.Name, Label: e.Name}`. -/
def visitEdges (name : String) (acc : jsGraph) (es : List GenEdge) : jsGraph :=
  es.foldl
    (fun a e =>
      if e.IsInverse then a
      else { a with Edges := goAppend a.Edges ⟨name, e.TypeName, e.Name⟩ }) acc

/-- One iteration of the node loop of `toJsGraph`: append the node (with its
fields), then walk its edges. -/
def visitNode (acc : jsGraph) (n : GenType) : jsGraph :=
  visitEdges n.Name { acc with Nodes := goAppend acc.Nodes ⟨n.Name, fieldsOf n⟩ } n.Edges

/-- `toJsGraph` from entviz.go: start from the zero value `jsGraph{}` (both
slices nil) and fold the node loop over `g.Nodes`. -/
def toJsGraph (g : GenGraph) : jsGraph :=
  g.Nodes.foldl visitNode ⟨none, none⟩

/-! ## Specification-side descriptions used for the refinement statements -/

/-- Turn a list into a Go-slice value the way repeated `append` from nil
does: an empty list of appends leaves the slice nil. -/
def listToOpt : List α → Option (List α)
  | [] => none
  | l => some l

/-- The underlying element list of a Go slice (nil reads as empty). -/
def optList (s : Option (List α)) : List α := s.getD []

/-- Spec-side description of a node's reduced field list: the input field
order, mapped verbatim. -/
def specFields (n : GenType) : List jsField :=
  n.Fields.map fun f => ⟨f.Name, f.TypeString, f.Comment⟩

/-- Spec-side description of a reduced node. -/
def specNodeJs (n : GenType) : jsNode :=
  ⟨n.Name, listToOpt (specFields n)⟩

/-- Spec-side description of the edges contributed by one entity: its
non-inverse relationship declarations, in declaration order. -/
def specEdgesOfNode (n : GenType) : List jsEdge :=
  (n.Edges.filter fun e => !e.IsInverse).map fun e => ⟨n.Name, e.TypeName, e.Name⟩

/-- Spec-side description of the full edge list: node iteration order, then
per-node declaration order. -/
def specEdges (g : GenGraph) : List jsEdge :=
  g.Nodes.flatMap specEdgesOfNode

/-! ## Model of `encoding/json.Marshal` for the entviz struct types

`generateHTML` serializes with `json.Marshal(&graph)`.  For struct values,
`Marshal` emits the fields in declaration order under their tag names, never
omitting a field (no `omitempty` in entviz.go), renders a nil slice as
`null`, and encodes strings with the default HTML-escaping encoder:
`"` and `\` get backslash escapes, `\n`/`\r`/`\t` get their shorthand
escapes, other control characters become a backslash-u escape with four
lower-case hex digits, and so do `<`, `>`, `&` (code points 3c, 3e, 26) and
U+2028/U+2029 (unconditionally, see Go issue 16402); every other character is copied
to the output unchanged (UTF-8). -/

/-- Lower-case hexadecimal digit, as `encoding/json` prints them. -/
def hexDig (n : Nat) : Char :=
  if n < 10 then Char.ofNat (48 + n) else Char.ofNat (87 + n)

/-- Encoding of one character by `encoding/json`'s HTML-escaping string
encoder. -/
def encChar (c : Char) : List Char :=
  if c = '"' then ['\\', '"']
  else if c = '\\' then ['\\', '\\']
  else if c = '\n' then ['\\', 'n']
  else if c = '\r' then ['\\', 'r']
  else if c = '\t' then ['\\', 't']
  else if c.toNat < 32 then
    ['\\', 'u', '0', '0', hexDig (c.toNat / 16), hexDig (c.toNat % 16)]
  else if c = '<' then ['\\', 'u', '0', '0', '3', 'c']
  else if c = '>' then ['\\', 'u', '0', '0', '3', 'e']
  else if c = '&' then ['\\', 'u', '0', '0', '2', '6']
  else if c.toNat = 0x2028 then ['\\', 'u', '2', '0', '2', '8']
  else if c.toNat = 0x2029 then ['\\', 'u', '2', '0', '2', '9']
  else [c]

/-- JSON string literal for `s`, as `encoding/json` emits it. -/
def encStr (s : String) : String :=
  ⟨'"' :: s.data.flatMap encChar ++ ['"']⟩

/-- Comma-separated join of already-rendered JSON values (array body). -/
def joinComma : List String → String
  | [] => ""
  | [s] => s
  | s :: rest => s ++ "," ++ joinComma rest

/-- Rendering of a Go slice value: `null` for a nil slice, a JSON array
otherwise. -/
def marshalArr (enc : α → String) : Option (List α) → String
  | none => "null"
  | some l => "[" ++ joinComma (l.map enc) ++ "]"

/-- `json.Marshal` of a `jsField`: tag order `name`, `type`, `comment`. -/
def marshalField (f : jsField) : String :=
  "\x7b\"name\":" ++ encStr f.name ++ ",\"type\":" ++ encStr f.type
    ++ ",\"comment\":" ++ encStr f.comment ++ "\x7d"

/-- `json.Marshal` of a `jsEdge`: tag order `from`, `to`, `label`. -/
def marshalEdge (e : jsEdge) : String :=
  "\x7b\"from\":" ++ encStr e.From ++ ",\"to\":" ++ encStr e.To
    ++ ",\"label\":" ++ encStr e.Label ++ "\x7d"

/-- `json.Marshal` of a `jsNode`: tag order `id`, `fields`. -/
def marshalNode (n : jsNode) : String :=
  "\x7b\"id\":" ++ encStr n.ID ++ ",\"fields\":" ++ marshalArr marshalField n.Fields ++ "\x7d"

/-- `json.Marshal` of a `jsGraph`: tag order `nodes`, `edges`. -/
def marshalJsGraph (g : jsGraph) : String :=
  "\x7b\"nodes\":" ++ marshalArr marshalNode g.Nodes
    ++ ",\"edges\":" ++ marshalArr marshalEdge g.Edges ++ "\x7d"

/-! ## A JSON string-literal decoder (for the round-trip property)

Models the unescaping performed by `json.Unmarshal` on a string literal
(surrogate-pair decoding is omitted: the encoder above never emits
surrogate escapes). -/

/-- Value of one hexadecimal digit character. -/
def hexVal (c : Char) : Option Nat :=
  if '0' ≤ c ∧ c ≤ '9' then some (c.toNat - 48)
  else if 'a' ≤ c ∧ c ≤ 'f' then some (c.toNat - 87)
  else if 'A' ≤ c ∧ c ≤ 'F' then some (c.toNat - 55)
  else none

/-- Decode the body of a JSON string literal (everything after the opening
quote); succeeds only when the closing quote ends the input. -/
def decodeBody : List Char → Option (List Char)
  | [] => none
  | c :: rest =>
    if c = '"' then (if rest = [] then some [] else none)
    else if c ≠ '\\' then (decodeBody rest).map (List.cons c)
    else
      match rest with
      | [] => none
      | e :: r2 =>
        if e = '"' then (decodeBody r2).map (List.cons '"')
        else if e = '\\' then (decodeBody r2).map (List.cons '\\')
        else if e = '/' then (decodeBody r2).map (List.cons '/')
        else if e = 'n' then (decodeBody r2).map (List.cons '\n')
        else if e = 'r' then (decodeBody r2).map (List.cons '\r')
        else if e = 't' then (decodeBody r2).map (List.cons '\t')
        else if e = 'b' then (decodeBody r2).map (List.cons (Char.ofNat 8))
        else if e = 'f' then (decodeBody r2).map (List.cons (Char.ofNat 12))
        else if e = 'u' then
          match r2 with
          | a :: b :: c2 :: d :: r3 =>
            match hexVal a, hexVal b, hexVal c2, hexVal d with
            | some x, some y, some z, some w =>
              (decodeBody r3).map (List.cons (Char.ofNat (4096 * x + 256 * y + 16 * z + w)))
            | _, _, _, _ => none
          | _ => none
        else none

/-- Decode a complete JSON string literal back to the string it denotes. -/
def decodeJsonString (s : String) : Option String :=
  match s.data with
  | c :: rest => if c = '"' then (decodeBody rest).map String.mk else none
  | [] => none

/-! ## Model of the parsed HTML template and `html/template.Execute`

`viztmpl = template.Must(template.New("viz").Parse(tmplhtml))` parses the
embedded template once per process.  A parsed template is a sequence of
literal text segments and actions; the only actions appearing in the
entviz pipeline are the four field substitutions on `templateData`, whose
values are the typed strings `template.CSS` / `template.JS`, which
`html/template` inserts verbatim (already marked safe for their context).
`Execute` on such a template cannot fail: it writes each literal segment
and each field value in order into the buffer. -/

/-- One segment of a parsed template: literal text or one of the four
`templateData` field actions. -/
inductive Seg where
  | lit : String → Seg
  | slotFiraCodeCSS : Seg
  | slotVisNetworkJS : Seg
  | slotRandomColorJS : Seg
  | slotGraphJSON : Seg
deriving DecidableEq, Repr

/-- `templateData` from entviz.go; the `template.CSS` / `template.JS`
payloads are carried as plain strings. -/
structure templateData where
  FiraCodeCSS : String
  VisNetworkJS : String
  RandomColorJS : String
  GraphJSON : String
deriving DecidableEq, Repr

/-- Errors surfaced by the pipeline (Go `error` values). -/
inductive Err where
  | assetMissing : String → Err
  | writeFailed : Err
  | other : String → Err
deriving DecidableEq, Repr

/-- Value substituted for one segment during `Execute`. -/
def renderSeg (d : templateData) : Seg → String
  | .lit s => s
  | .slotFiraCodeCSS => d.FiraCodeCSS
  | .slotVisNetworkJS => d.VisNetworkJS
  | .slotRandomColorJS => d.RandomColorJS
  | .slotGraphJSON => d.GraphJSON

/-- `viztmpl.Execute(&b, data)`: substitute every segment in order.  For
templates made of literals and the four field actions this always
succeeds (the `error` result is always nil). -/
def executeTmpl (t : List Seg) (d : templateData) : Except Err String :=
  .ok (String.join (t.map (renderSeg d)))

/-- Modelled from the spec: the embedded HTML template `viz.tmpl` is not
under src (only its `go:embed` declaration and the test
`TestTemplatePlaceholders` are).  Per the spec's template contract and that
test, it is an HTML page containing the four placeholders `FiraCodeCSS`,
`VisNetworkJS`, `RandomColorJS` inside style/script elements and
`GraphJSON` inside a script element. -/
def vizTmplModel : List Seg :=
  [ .lit "<html><head><style>", .slotFiraCodeCSS,
    .lit "</style><script>", .slotVisNetworkJS,
    .lit "</script><script>", .slotRandomColorJS,
    .lit "</script></head><body><div id=\"schema\"></div><script>const graph = ",
    .slotGraphJSON,
    .lit ";</script></body></html>" ]

/-! ## Asset provider and `generateHTML` -/

/-- The embedded asset file system (`embed.FS`), an association list from
path to content; `fs.ReadFile` returns the first matching entry. -/
structure AssetFS where
  files : List (String × String)
deriving DecidableEq, Repr

/-- `fs.ReadFile(assets, name)`: `none` models the error return for a
missing bundled file. -/
def readFileFS (a : AssetFS) (name : String) : Option String :=
  (a.files.find? fun p => p.1 == name).map (·.2)

/-- `generateHTML` from entviz.go: read the three bundled assets (failing
fast on the first missing one), reduce the graph, marshal it to JSON
(which cannot fail for these all-string struct types), and execute the
template on the four payloads.  The template is the process-wide parsed
template, passed here explicitly. -/
def generateHTML (assets : AssetFS) (tmpl : List Seg) (g : GenGraph) : Except Err String :=
  match readFileFS assets "assets/fira_code.css" with
  | none => .error (.assetMissing "assets/fira_code.css")
  | some firaCodeCSS =>
    match readFileFS assets "assets/vis-network.min.js" with
    | none => .error (.assetMissing "assets/vis-network.min.js")
    | some visNetworkJS =>
      match readFileFS assets "assets/randomcolor.min.js" with
      | none => .error (.assetMissing "assets/randomcolor.min.js")
      | some randomColorJS =>
        executeTmpl tmpl
          ⟨firaCodeCSS, visNetworkJS, randomColorJS, marshalJsGraph (toJsGraph g)⟩

/-! ## The generation hook `VisualizeSchema` over an explicit file system -/

/-- Target file-system state: path to content.  Writing conses a new
binding; lookups take the most recent one. -/
structure OsFS where
  files : List (String × String)
deriving DecidableEq, Repr

/-- Record `content` as the contents of `path`. -/
def setFileFS (fs : OsFS) (path content : String) : OsFS :=
  ⟨(path, content) :: fs.files⟩

/-- Contents of `path`, if the file exists. -/
def getFileFS (fs : OsFS) (path : String) : Option String :=
  (fs.files.find? fun p => p.1 == path).map (·.2)

/-- `filepath.Join(target, name)` for a clean directory path and a plain
file name. -/
def pathJoin (dir name : String) : String :=
  if dir = "" then name else dir ++ "/" ++ name

/-- `os.WriteFile(path, content, 0644)`: open with `O_TRUNC` (the old
contents are discarded), then write the buffer with a single `Write` call.
`wcap` is the write-capacity oracle: `none` means the operating system
accepts the whole buffer; `some k` means it accepts only the first `k`
bytes and then fails, in which case the truncated file keeps exactly the
accepted prefix and the error is returned. -/
def writeFileOS (fs : OsFS) (path content : String) : Option Nat → Option Err × OsFS
  | none => (none, setFileFS fs path content)
  | some k =>
    if content.length ≤ k then (none, setFileFS fs path content)
    else (some .writeFailed, setFileFS fs path ⟨content.data.take k⟩)

/-- `VisualizeSchema` from entviz.go: run the wrapped generator `next`
first and return its error unchanged if it fails; otherwise render the
visualization page and return that error unchanged if rendering fails;
otherwise write the buffer to `filepath.Join(g.Config.Target,
"schema-viz.html")` and return the write's result.  `target` is
`g.Config.Target`; `wcap` is the write-capacity oracle of `writeFileOS`. -/
def VisualizeSchema (next : GenGraph → Except Err Unit) (assets : AssetFS)
    (tmpl : List Seg) (g : GenGraph) (target : String) (wcap : Option Nat)
    (fs : OsFS) : Option Err × OsFS :=
  match next g with
  | .error e => (some e, fs)
  | .ok _ =>
    match generateHTML assets tmpl g with
    | .error e => (some e, fs)
    | .ok buf => writeFileOS fs (pathJoin target "schema-viz.html") buf wcap

/-! ## Concrete inputs used by witnesses and counterexamples -/

/-- The spec's end-to-end scenario: `User` with one commented field and a
non-inverse relationship `pets` targeting `Pet`; `Pet` declares nothing. -/
def gUserPet : GenGraph :=
  ⟨[⟨"User", [⟨"name", "string", "用户姓名"⟩], [⟨"pets", false, "Pet"⟩]⟩,
    ⟨"Pet", [], []⟩]⟩

/-- A graph with a self-referential relationship and an inverse declaration. -/
def gSelfLoop : GenGraph :=
  ⟨[⟨"User", [], [⟨"friends", false, "User"⟩, ⟨"owner", true, "Pet"⟩]⟩]⟩

/-- A complete asset bundle. -/
def assetsOK : AssetFS :=
  ⟨[("assets/fira_code.css", "body"),
    ("assets/vis-network.min.js", "var vis;"),
    ("assets/randomcolor.min.js", "var rc;")]⟩

/-- An empty target directory. -/
def fsEmpty : OsFS := ⟨[]⟩

/-- A wrapped generator that always succeeds. -/
def nextOK : GenGraph → Except Err Unit := fun _ => .ok ()

/-! ## Script-context safety predicate -/

/-- A string is script-safe when it contains none of the characters that
could open or close HTML markup from inside a script element: every
character differs from the less-than sign, the greater-than sign and the
ampersand. -/
def CleanStr (s : String) : Prop :=
  ∀ c ∈ s.data, c ≠ '<' ∧ c ≠ '>' ∧ c ≠ '&'

/-- The character sequence of a script-closing tag. -/
def scriptClose : List Char := "</script>".data

instance (s : String) : Decidable (CleanStr s) := by
  unfold CleanStr
  infer_instance

/-! ## Characterization of the reducer folds -/

theorem foldl_goAppend (l : List α) (s : Option (List α)) :
    l.foldl goAppend s = if l.isEmpty then s else some (s.getD [] ++ l) := by
  induction l generalizing s with
  | nil => rfl
  | cons x t ih =>
    simp only [List.foldl_cons, ih, List.isEmpty_cons]
    cases t with
    | nil => simp [goAppend]
    | cons y t' => simp [goAppend]

theorem listToOpt_eq (l : List α) : listToOpt l = if l.isEmpty then none else some l := by
  cases l <;> rfl

theorem optList_listToOpt (l : List α) : optList (listToOpt l) = l := by
  cases l <;> rfl

theorem fieldsOf_eq (n : GenType) : fieldsOf n = listToOpt (specFields n) := by
  have h := List.foldl_map (fun f : GenField => (⟨f.Name, f.TypeString, f.Comment⟩ : jsField))
    goAppend n.Fields (none : Option (List jsField))
  unfold fieldsOf specFields
  rw [← h, foldl_goAppend, listToOpt_eq]
  split
  · rfl
  · simp

theorem visitEdges_eq (es : List GenEdge) (name : String) (acc : jsGraph) :
    visitEdges name acc es =
      ⟨acc.Nodes,
        ((es.filter fun e => !e.IsInverse).map
          fun e => (⟨name, e.TypeName, e.Name⟩ : jsEdge)).foldl goAppend acc.Edges⟩ := by
  induction es generalizing acc with
  | nil => rfl
  | cons e t ih =>
    rw [show visitEdges name acc (e :: t)
        = visitEdges name (if e.IsInverse then acc
            else { acc with Edges := goAppend acc.Edges ⟨name, e.TypeName, e.Name⟩ }) t from rfl]
    cases h : e.IsInverse with
    | true =>
      rw [if_pos rfl, ih acc]
      simp [List.filter_cons, h]
    | false =>
      rw [if_neg (by simp), ih { acc with Edges := goAppend acc.Edges ⟨name, e.TypeName, e.Name⟩ }]
      simp [List.filter_cons, h]

theorem foldl_visitNode (ns : List GenType) (acc : jsGraph) :
    ns.foldl visitNode acc =
      ⟨(ns.map specNodeJs).foldl goAppend acc.Nodes,
        (ns.flatMap specEdgesOfNode).foldl goAppend acc.Edges⟩ := by
  induction ns generalizing acc with
  | nil => rfl
  | cons n t ih =>
    have hnode : (⟨n.Name, fieldsOf n⟩ : jsNode) = specNodeJs n := by
      rw [specNodeJs, fieldsOf_eq]
    rw [show (n :: t).foldl visitNode acc = t.foldl visitNode (visitNode acc n) from rfl]
    rw [visitNode, visitEdges_eq, ih]
    simp only [List.map_cons, List.flatMap_cons, List.foldl_cons, List.foldl_append]
    rw [hnode]
    rfl

theorem toJsGraph_eq (g : GenGraph) :
    toJsGraph g = ⟨listToOpt (g.Nodes.map specNodeJs), listToOpt (specEdges g)⟩ := by
  rw [toJsGraph, foldl_visitNode]
  simp [foldl_goAppend, listToOpt_eq, specEdges, Option.getD]

theorem hexDig_clean (n : Nat) (h : n < 16) :
    hexDig n ≠ '<' ∧ hexDig n ≠ '>' ∧ hexDig n ≠ '&' := by
  interval_cases n <;> decide

theorem encChar_clean (c c' : Char) (h : c' ∈ encChar c) :
    c' ≠ '<' ∧ c' ≠ '>' ∧ c' ≠ '&' := by
  unfold encChar at h
  by_cases h1 : c = '"'
  · rw [if_pos h1] at h; fin_cases h <;> decide
  rw [if_neg h1] at h
  by_cases h2 : c = '\\'
  · rw [if_pos h2] at h; fin_cases h <;> decide
  rw [if_neg h2] at h
  by_cases h3 : c = '\n'
  · rw [if_pos h3] at h; fin_cases h <;> decide
  rw [if_neg h3] at h
  by_cases h4 : c = '\r'
  · rw [if_pos h4] at h; fin_cases h <;> decide
  rw [if_neg h4] at h
  by_cases h5 : c = '\t'
  · rw [if_pos h5] at h; fin_cases h <;> decide
  rw [if_neg h5] at h
  by_cases h6 : c.toNat < 32
  · rw [if_pos h6] at h
    simp only [List.mem_cons, List.not_mem_nil, or_false] at h
    rcases h with rfl | rfl | rfl | rfl | rfl | rfl
    · decide
    · decide
    · decide
    · decide
    · exact hexDig_clean _ (by omega)
    · exact hexDig_clean _ (Nat.mod_lt _ (by omega))
  rw [if_neg h6] at h
  by_cases h7 : c = '<'
  · rw [if_pos h7] at h; fin_cases h <;> decide
  rw [if_neg h7] at h
  by_cases h8 : c = '>'
  · rw [if_pos h8] at h; fin_cases h <;> decide
  rw [if_neg h8] at h
  by_cases h9 : c = '&'
  · rw [if_pos h9] at h; fin_cases h <;> decide
  rw [if_neg h9] at h
  by_cases h10 : c.toNat = 0x2028
  · rw [if_pos h10] at h; fin_cases h <;> decide
  rw [if_neg h10] at h
  by_cases h11 : c.toNat = 0x2029
  · rw [if_pos h11] at h; fin_cases h <;> decide
  rw [if_neg h11] at h
  simp only [List.mem_singleton] at h
  subst h
  exact ⟨h7, h8, h9⟩

theorem cleanStr_append (a b : String) (ha : CleanStr a) (hb : CleanStr b) :
    CleanStr (a ++ b) := by
  intro c hc
  rw [String.data_append] at hc
  rcases List.mem_append.mp hc with h | h
  exacts [ha c h, hb c h]

theorem cleanStr_encStr (s : String) : CleanStr (encStr s) := by
  intro c hc
  simp only [encStr, List.mem_cons, List.mem_append, List.mem_flatMap,
    List.mem_singleton] at hc
  rcases hc with (rfl | ⟨a, _, ha⟩) | (rfl | h0)
  · decide
  · exact encChar_clean a c ha
  · decide
  · simp at h0

theorem cleanStr_joinComma (l : List String) (h : ∀ s ∈ l, CleanStr s) :
    CleanStr (joinComma l) := by
  induction l with
  | nil => intro c hc; simp [joinComma] at hc
  | cons s t ih =>
    cases t with
    | nil => exact h s (by simp)
    | cons s' t' =>
      rw [show joinComma (s :: s' :: t') = s ++ "," ++ joinComma (s' :: t') from rfl]
      refine cleanStr_append _ _ (cleanStr_append _ _ (h s (by simp)) ?_) ?_
      · decide
      · exact ih fun x hx => h x (List.mem_cons_of_mem _ hx)

theorem cleanStr_marshalArr (enc : α → String) (hcl : ∀ x, CleanStr (enc x))
    (o : Option (List α)) : CleanStr (marshalArr enc o) := by
  cases o with
  | none => exact (by decide : CleanStr "null")
  | some l =>
    refine cleanStr_append _ _ (cleanStr_append _ _ (by decide) ?_) (by decide)
    refine cleanStr_joinComma _ fun s hs => ?_
    rcases List.mem_map.mp hs with ⟨x, _, rfl⟩
    exact hcl x

theorem cleanStr_marshalField (f : jsField) : CleanStr (marshalField f) := by
  unfold marshalField
  refine cleanStr_append _ _ (cleanStr_append _ _ (cleanStr_append _ _
    (cleanStr_append _ _ (cleanStr_append _ _ (cleanStr_append _ _ (by decide)
      (cleanStr_encStr _)) (by decide)) (cleanStr_encStr _)) (by decide))
    (cleanStr_encStr _)) (by decide)

theorem cleanStr_marshalEdge (e : jsEdge) : CleanStr (marshalEdge e) := by
  unfold marshalEdge
  refine cleanStr_append _ _ (cleanStr_append _ _ (cleanStr_append _ _
    (cleanStr_append _ _ (cleanStr_append _ _ (cleanStr_append _ _ (by decide)
      (cleanStr_encStr _)) (by decide)) (cleanStr_encStr _)) (by decide))
    (cleanStr_encStr _)) (by decide)

theorem cleanStr_marshalNode (n : jsNode) : CleanStr (marshalNode n) := by
  unfold marshalNode
  refine cleanStr_append _ _ (cleanStr_append _ _ (cleanStr_append _ _
    (cleanStr_append _ _ (by decide) (cleanStr_encStr _)) (by decide))
    (cleanStr_marshalArr _ cleanStr_marshalField _)) (by decide)

theorem cleanStr_marshalJsGraph (g : jsGraph) : CleanStr (marshalJsGraph g) := by
  unfold marshalJsGraph
  refine cleanStr_append _ _ (cleanStr_append _ _ (cleanStr_append _ _
    (cleanStr_append _ _ (by decide) (cleanStr_marshalArr _ cleanStr_marshalNode _))
    (by decide)) (cleanStr_marshalArr _ cleanStr_marshalEdge _)) (by decide)

/-- C4: for every external graph, the script-slot JSON payload produced by
`json.Marshal` on the reduced graph contains no less-than sign, greater-than
sign or ampersand (the HTML-escaping encoder rewrites them and the quote
character to backslash escapes), so the payload cannot contain a
script-closing tag or open any markup: comment text can never escape the
enclosing script context of the rendered document. -/
theorem C4_payload_script_safe (g : GenGraph) :
    CleanStr (marshalJsGraph (toJsGraph g))
    ∧ ¬ ∃ l r, (marshalJsGraph (toJsGraph g)).data = l ++ scriptClose ++ r := by
  refine ⟨cleanStr_marshalJsGraph _, ?_⟩
  rintro ⟨l, r, hsplit⟩
  have hlt : '<' ∈ (marshalJsGraph (toJsGraph g)).data := by
    rw [hsplit]
    refine List.mem_append.mpr (Or.inl (List.mem_append.mpr (Or.inr ?_)))
    decide
  exact (cleanStr_marshalJsGraph (toJsGraph g) '<' hlt).1 rfl

/-- C6: the serializer uses the struct tag order of entviz.go — `nodes`
before `edges`; `id` before `fields`; `name`, `type`, `comment`; `from`,
`to`, `label` — and an empty comment is serialized as an explicit
`"comment":""`, never omitted. -/
theorem C6_key_order (g : jsGraph) (n : jsNode) (f : jsField) (e : jsEdge) :
    marshalJsGraph g = "\x7b\"nodes\":" ++ marshalArr marshalNode g.Nodes
        ++ ",\"edges\":" ++ marshalArr marshalEdge g.Edges ++ "\x7d"
    ∧ marshalNode n = "\x7b\"id\":" ++ encStr n.ID ++ ",\"fields\":"
        ++ marshalArr marshalField n.Fields ++ "\x7d"
    ∧ marshalField f = "\x7b\"name\":" ++ encStr f.name ++ ",\"type\":" ++ encStr f.type
        ++ ",\"comment\":" ++ encStr f.comment ++ "\x7d"
    ∧ marshalEdge e = "\x7b\"from\":" ++ encStr e.From ++ ",\"to\":" ++ encStr e.To
        ++ ",\"label\":" ++ encStr e.Label ++ "\x7d"
    ∧ (f.comment = "" → marshalField f = "\x7b\"name\":" ++ encStr f.name
        ++ ",\"type\":" ++ encStr f.type ++ ",\"comment\":\"\"\x7d") := by
  refine ⟨rfl, rfl, rfl, rfl, fun h => ?_⟩
  rw [marshalField, h]
  rw [show encStr "" = "\"\"" from rfl]
  rw [String.append_assoc, String.append_assoc]
  rfl

/-- Witness for C6: a field with the empty comment keeps the
`"comment":""` key. -/
theorem C6_key_order_witness :
    marshalField ⟨"n", "t", ""⟩ = "\x7b\"name\":" ++ encStr "n"
      ++ ",\"type\":" ++ encStr "t" ++ ",\"comment\":\"\"\x7d" :=
  (C6_key_order ⟨none, none⟩ ⟨"", none⟩ ⟨"n", "t", ""⟩ ⟨"", "", ""⟩).2.2.2.2 rfl

theorem hexVal_hexDig (n : Nat) (h : n < 16) : hexVal (hexDig n) = some n := by
  interval_cases n <;> decide

theorem decodeBody_plain (c : Char) (h1 : c ≠ '"') (h2 : c ≠ '\\') (r : List Char) :
    decodeBody (c :: r) = (decodeBody r).map (List.cons c) := by
  rw [decodeBody.eq_def]
  dsimp only
  rw [if_neg h1, if_pos h2]


theorem decodeBody_q (r : List Char) :
    decodeBody ('\\' :: '"' :: r) = (decodeBody r).map (List.cons '"') := by
  rw [decodeBody.eq_def]
  dsimp only
  rw [if_neg (by decide : ¬('\\' : Char) = '"'), if_neg (by decide : ¬('\\' : Char) ≠ '\\'),
    if_pos (rfl : ('"' : Char) = '"')]

theorem decodeBody_bs (r : List Char) :
    decodeBody ('\\' :: '\\' :: r) = (decodeBody r).map (List.cons '\\') := by
  rw [decodeBody.eq_def]
  dsimp only
  rw [if_neg (by decide : ¬('\\' : Char) = '"'), if_neg (by decide : ¬('\\' : Char) ≠ '\\'),
    if_neg (by decide : ¬('\\' : Char) = '"'), if_pos (rfl : ('\\' : Char) = '\\')]

theorem decodeBody_n (r : List Char) :
    decodeBody ('\\' :: 'n' :: r) = (decodeBody r).map (List.cons '\n') := by
  rw [decodeBody.eq_def]
  dsimp only
  rw [if_neg (by decide : ¬('\\' : Char) = '"'), if_neg (by decide : ¬('\\' : Char) ≠ '\\'),
    if_neg (by decide : ¬('n' : Char) = '"'), if_neg (by decide : ¬('n' : Char) = '\\'),
    if_neg (by decide : ¬('n' : Char) = '/'), if_pos (rfl : ('n' : Char) = 'n')]

theorem decodeBody_r (r : List Char) :
    decodeBody ('\\' :: 'r' :: r) = (decodeBody r).map (List.cons '\r') := by
  rw [decodeBody.eq_def]
  dsimp only
  rw [if_neg (by decide : ¬('\\' : Char) = '"'), if_neg (by decide : ¬('\\' : Char) ≠ '\\'),
    if_neg (by decide : ¬('r' : Char) = '"'), if_neg (by decide : ¬('r' : Char) = '\\'),
    if_neg (by decide : ¬('r' : Char) = '/'), if_neg (by decide : ¬('r' : Char) = 'n'),
    if_pos (rfl : ('r' : Char) = 'r')]

theorem decodeBody_t (r : List Char) :
    decodeBody ('\\' :: 't' :: r) = (decodeBody r).map (List.cons '\t') := by
  rw [decodeBody.eq_def]
  dsimp only
  rw [if_neg (by decide : ¬('\\' : Char) = '"'), if_neg (by decide : ¬('\\' : Char) ≠ '\\'),
    if_neg (by decide : ¬('t' : Char) = '"'), if_neg (by decide : ¬('t' : Char) = '\\'),
    if_neg (by decide : ¬('t' : Char) = '/'), if_neg (by decide : ¬('t' : Char) = 'n'),
    if_neg (by decide : ¬('t' : Char) = 'r'), if_pos (rfl : ('t' : Char) = 't')]

theorem decodeBody_u (a b c2 d : Char) (r : List Char) (x y z w : Nat)
    (ha : hexVal a = some x) (hb : hexVal b = some y)
    (hc : hexVal c2 = some z) (hd : hexVal d = some w) :
    decodeBody ('\\' :: 'u' :: a :: b :: c2 :: d :: r)
      = (decodeBody r).map (List.cons (Char.ofNat (4096 * x + 256 * y + 16 * z + w))) := by
  rw [decodeBody.eq_def]
  dsimp only
  rw [if_neg (by decide : ¬('\\' : Char) = '"'), if_neg (by decide : ¬('\\' : Char) ≠ '\\'),
    if_neg (by decide : ¬('u' : Char) = '"'), if_neg (by decide : ¬('u' : Char) = '\\'),
    if_neg (by decide : ¬('u' : Char) = '/'), if_neg (by decide : ¬('u' : Char) = 'n'),
    if_neg (by decide : ¬('u' : Char) = 'r'), if_neg (by decide : ¬('u' : Char) = 't'),
    if_neg (by decide : ¬('u' : Char) = 'b'), if_neg (by decide : ¬('u' : Char) = 'f'),
    if_pos (rfl : ('u' : Char) = 'u'), ha, hb, hc, hd]

theorem decodeBody_enc (l : List Char) :
    decodeBody (l.flatMap encChar ++ ['"']) = some l := by
  induction l with
  | nil => rfl
  | cons c t ih =>
    rw [List.flatMap_cons, List.append_assoc]
    by_cases h1 : c = '"'
    · subst h1
      rw [show encChar '"' = ['\\', '"'] from by decide, List.cons_append, List.cons_append,
        List.nil_append, decodeBody_q, ih]
      rfl
    by_cases h2 : c = '\\'
    · subst h2
      rw [show encChar '\\' = ['\\', '\\'] from by decide, List.cons_append, List.cons_append,
        List.nil_append, decodeBody_bs, ih]
      rfl
    by_cases h3 : c = '\n'
    · subst h3
      rw [show encChar '\n' = ['\\', 'n'] from by decide, List.cons_append, List.cons_append,
        List.nil_append, decodeBody_n, ih]
      rfl
    by_cases h4 : c = '\r'
    · subst h4
      rw [show encChar '\r' = ['\\', 'r'] from by decide, List.cons_append, List.cons_append,
        List.nil_append, decodeBody_r, ih]
      rfl
    by_cases h5 : c = '\t'
    · subst h5
      rw [show encChar '\t' = ['\\', 't'] from by decide, List.cons_append, List.cons_append,
        List.nil_append, decodeBody_t, ih]
      rfl
    by_cases h6 : c.toNat < 32
    · have henc : encChar c
          = ['\\', 'u', '0', '0', hexDig (c.toNat / 16), hexDig (c.toNat % 16)] := by
        unfold encChar
        rw [if_neg h1, if_neg h2, if_neg h3, if_neg h4, if_neg h5, if_pos h6]
      rw [henc]
      simp only [List.cons_append, List.nil_append]
      rw [decodeBody_u _ _ _ _ _ 0 0 (c.toNat / 16) (c.toNat % 16) (by decide) (by decide)
        (hexVal_hexDig _ (by omega)) (hexVal_hexDig _ (Nat.mod_lt _ (by omega)))]
      rw [show 4096 * 0 + 256 * 0 + 16 * (c.toNat / 16) + c.toNat % 16 = c.toNat from by omega]
      rw [Char.ofNat_toNat, ih]
      rfl
    by_cases h7 : c = '<'
    · subst h7
      rw [show encChar '<' = ['\\', 'u', '0', '0', '3', 'c'] from by decide]
      simp only [List.cons_append, List.nil_append]
      rw [decodeBody_u _ _ _ _ _ 0 0 3 12 (by decide) (by decide) (by decide) (by decide)]
      rw [show Char.ofNat (4096 * 0 + 256 * 0 + 16 * 3 + 12) = '<' from by decide, ih]
      rfl
    by_cases h8 : c = '>'
    · subst h8
      rw [show encChar '>' = ['\\', 'u', '0', '0', '3', 'e'] from by decide]
      simp only [List.cons_append, List.nil_append]
      rw [decodeBody_u _ _ _ _ _ 0 0 3 14 (by decide) (by decide) (by decide) (by decide)]
      rw [show Char.ofNat (4096 * 0 + 256 * 0 + 16 * 3 + 14) = '>' from by decide, ih]
      rfl
    by_cases h9 : c = '&'
    · subst h9
      rw [show encChar '&' = ['\\', 'u', '0', '0', '2', '6'] from by decide]
      simp only [List.cons_append, List.nil_append]
      rw [decodeBody_u _ _ _ _ _ 0 0 2 6 (by decide) (by decide) (by decide) (by decide)]
      rw [show Char.ofNat (4096 * 0 + 256 * 0 + 16 * 2 + 6) = '&' from by decide, ih]
      rfl
    by_cases h10 : c.toNat = 0x2028
    · have henc : encChar c = ['\\', 'u', '2', '0', '2', '8'] := by
        unfold encChar
        rw [if_neg h1, if_neg h2, if_neg h3, if_neg h4, if_neg h5, if_neg h6, if_neg h7,
          if_neg h8, if_neg h9, if_pos h10]
      rw [henc]
      simp only [List.cons_append, List.nil_append]
      rw [decodeBody_u _ _ _ _ _ 2 0 2 8 (by decide) (by decide) (by decide) (by decide)]
      rw [show 4096 * 2 + 256 * 0 + 16 * 2 + 8 = c.toNat from by omega]
      rw [Char.ofNat_toNat, ih]
      rfl
    by_cases h11 : c.toNat = 0x2029
    · have henc : encChar c = ['\\', 'u', '2', '0', '2', '9'] := by
        unfold encChar
        rw [if_neg h1, if_neg h2, if_neg h3, if_neg h4, if_neg h5, if_neg h6, if_neg h7,
          if_neg h8, if_neg h9, if_neg h10, if_pos h11]
      rw [henc]
      simp only [List.cons_append, List.nil_append]
      rw [decodeBody_u _ _ _ _ _ 2 0 2 9 (by decide) (by decide) (by decide) (by decide)]
      rw [show 4096 * 2 + 256 * 0 + 16 * 2 + 9 = c.toNat from by omega]
      rw [Char.ofNat_toNat, ih]
      rfl
    · have henc : encChar c = [c] := by
        unfold encChar
        rw [if_neg h1, if_neg h2, if_neg h3, if_neg h4, if_neg h5, if_neg h6, if_neg h7,
          if_neg h8, if_neg h9, if_neg h10, if_neg h11]
      rw [henc, List.cons_append, List.nil_append, decodeBody_plain c h1 h2, ih]
      rfl

theorem decodeJsonString_encStr (s : String) : decodeJsonString (encStr s) = some s := by
  rw [show encStr s = ⟨'"' :: (s.data.flatMap encChar ++ ['"'])⟩ from rfl]
  rw [decodeJsonString.eq_def]
  dsimp only
  rw [if_pos rfl, decodeBody_enc]
  rfl

/-- C1: for every external graph, `toJsGraph` emits exactly the non-inverse
relationship declarations as edges — in node order then declaration order,
one edge `{from: declaring entity, to: target type name, label:
relationship name}` per declaration, none for inverse declarations — so the
edge count is the total non-inverse declaration count, and a declaration
targeting its own entity yields an edge with `from = to` (a self-loop, not
an error: `toJsGraph` is total). -/
theorem C1_edge_emission (g : GenGraph) :
    optList (toJsGraph g).Edges = specEdges g
    ∧ (optList (toJsGraph g).Edges).length
        = (g.Nodes.map fun n => (n.Edges.filter fun e => !e.IsInverse).length).sum
    ∧ ∀ n ∈ g.Nodes, ∀ e ∈ n.Edges, e.IsInverse = false → e.TypeName = n.Name →
        (⟨n.Name, e.TypeName, e.Name⟩ : jsEdge) ∈ optList (toJsGraph g).Edges
        ∧ (⟨n.Name, e.TypeName, e.Name⟩ : jsEdge).From
            = (⟨n.Name, e.TypeName, e.Name⟩ : jsEdge).To := by
  have hedges : optList (toJsGraph g).Edges = specEdges g := by
    rw [toJsGraph_eq]
    exact optList_listToOpt _
  refine ⟨hedges, ?_, ?_⟩
  · rw [hedges, specEdges, List.length_flatMap]
    refine congrArg List.sum (List.map_congr_left fun n _ => ?_)
    simp [specEdgesOfNode, Function.comp]
  · intro n hn e he hinv htgt
    constructor
    · rw [hedges, specEdges, List.mem_flatMap]
      exact ⟨n, hn, by
        rw [specEdgesOfNode]
        exact List.mem_map_of_mem _ (List.mem_filter.mpr ⟨he, by simp [hinv]⟩)⟩
    · simp [htgt]

/-- Witness for C1 at a concrete graph with a self-referential `friends`
declaration and an inverse declaration. -/
theorem C1_edge_emission_witness :
    (⟨"User", "User", "friends"⟩ : jsEdge) ∈ optList (toJsGraph gSelfLoop).Edges
    ∧ (⟨"User", "User", "friends"⟩ : jsEdge).From
        = (⟨"User", "User", "friends"⟩ : jsEdge).To :=
  (C1_edge_emission gSelfLoop).2.2
    ⟨"User", [], [⟨"friends", false, "User"⟩, ⟨"owner", true, "Pet"⟩]⟩ (by decide)
    ⟨"friends", false, "User"⟩ (by decide) rfl rfl

/-- C5: reduction and serialization are deterministic — identical input
graphs produce identical JSON strings — and the orders are fixed functions
of the input: node order follows input node order (each node mapped to
`specNodeJs`, whose field list preserves input field order), and edge order
follows node iteration order then per-node declaration order
(`specEdges`). -/
theorem C5_deterministic_order (g₁ g₂ : GenGraph) (h : g₁ = g₂) :
    marshalJsGraph (toJsGraph g₁) = marshalJsGraph (toJsGraph g₂)
    ∧ (toJsGraph g₁).Nodes = listToOpt (g₁.Nodes.map specNodeJs)
    ∧ (toJsGraph g₁).Edges = listToOpt (specEdges g₁) := by
  subst h
  refine ⟨rfl, ?_, ?_⟩ <;> rw [toJsGraph_eq]

/-- Witness for C5 at the `User`/`Pet` example. -/
theorem C5_deterministic_order_witness :
    marshalJsGraph (toJsGraph gUserPet) = marshalJsGraph (toJsGraph gUserPet)
    ∧ (toJsGraph gUserPet).Nodes = listToOpt (gUserPet.Nodes.map specNodeJs)
    ∧ (toJsGraph gUserPet).Edges = listToOpt (specEdges gUserPet) :=
  C5_deterministic_order gUserPet gUserPet rfl

set_option maxRecDepth 8000 in
/-- Counterexample to C3 as stated: on the `User`/`Pet` scenario the
field-less entity `Pet` does not serialize its `fields` key as the empty
array `[]` — the reducer leaves the slice nil, so the key is `null` and
the serialized graph differs from the claimed byte sequence. -/
theorem C3_counterexample :
    marshalJsGraph (toJsGraph gUserPet)
      ≠ "\x7b\"nodes\":[\x7b\"id\":\"User\",\"fields\":[\x7b\"name\":\"name\",\"type\":\"string\",\"comment\":\"用户姓名\"\x7d]\x7d,\x7b\"id\":\"Pet\",\"fields\":[]\x7d],\"edges\":[\x7b\"from\":\"User\",\"to\":\"Pet\",\"label\":\"pets\"\x7d]\x7d"
    ∧ (toJsGraph gUserPet).Nodes = some [⟨"User", some [⟨"name", "string", "用户姓名"⟩]⟩, ⟨"Pet", none⟩] := by
  constructor
  · decide
  · decide

set_option maxRecDepth 8000 in
/-- C3 (amended): the scenario serializes exactly as claimed except that
the field-less `Pet` gets `"fields":null` (nil slice), not `[]`. -/
theorem C3_user_pet_json :
    marshalJsGraph (toJsGraph gUserPet)
      = "\x7b\"nodes\":[\x7b\"id\":\"User\",\"fields\":[\x7b\"name\":\"name\",\"type\":\"string\",\"comment\":\"用户姓名\"\x7d]\x7d,\x7b\"id\":\"Pet\",\"fields\":null\x7d],\"edges\":[\x7b\"from\":\"User\",\"to\":\"Pet\",\"label\":\"pets\"\x7d]\x7d" := by
  decide

/-- C10: empty collections serialize as `null`, not `[]` — a graph with no
entity types yields the payload with both keys `null`, and a graph none of
whose declarations is non-inverse yields a nil edge slice and an
`"edges":null` payload. -/
theorem C10_nil_slices_null (g : GenGraph) :
    (g.Nodes = [] → marshalJsGraph (toJsGraph g) = "\x7b\"nodes\":null,\"edges\":null\x7d")
    ∧ ((∀ n ∈ g.Nodes, ∀ e ∈ n.Edges, e.IsInverse = true) →
        (toJsGraph g).Edges = none
        ∧ marshalJsGraph (toJsGraph g)
            = "\x7b\"nodes\":" ++ marshalArr marshalNode (toJsGraph g).Nodes
                ++ ",\"edges\":null\x7d") := by
  constructor
  · intro h
    have : g = ⟨[]⟩ := by cases g; simp_all
    subst this
    rfl
  · intro h
    have hnil : specEdges g = [] := by
      rw [specEdges]
      apply List.flatMap_eq_nil_iff.mpr
      intro n hn
      rw [specEdgesOfNode]
      have : n.Edges.filter (fun e => !e.IsInverse) = [] :=
        List.filter_eq_nil_iff.mpr fun e he => by simp [h n hn e he]
      rw [this, List.map_nil]
    have hedges : (toJsGraph g).Edges = none := by
      rw [toJsGraph_eq, hnil]
      rfl
    refine ⟨hedges, ?_⟩
    rw [marshalJsGraph, hedges]
    rw [show marshalArr marshalEdge none = "null" from rfl]
    rw [String.append_assoc, String.append_assoc]
    rfl

/-- Witness for C10: a single all-inverse declaration yields `"edges":null`
(and, with no fields, `"fields":null` inside the single node). -/
theorem C10_nil_slices_null_witness :
    (toJsGraph ⟨[⟨"Pet", [], [⟨"owner", true, "User"⟩]⟩]⟩).Edges = none
    ∧ marshalJsGraph (toJsGraph ⟨[⟨"Pet", [], [⟨"owner", true, "User"⟩]⟩]⟩)
        = "\x7b\"nodes\":"
            ++ marshalArr marshalNode (toJsGraph ⟨[⟨"Pet", [], [⟨"owner", true, "User"⟩]⟩]⟩).Nodes
            ++ ",\"edges\":null\x7d" :=
  (C10_nil_slices_null ⟨[⟨"Pet", [], [⟨"owner", true, "User"⟩]⟩]⟩).2
    (by intro n hn e he; fin_cases hn; fin_cases he; rfl)

/-- Counterexample to C7 as stated: U+2028 LINE SEPARATOR is non-ASCII,
yet `encoding/json` escapes it to a backslash-u numeric code point instead
of preserving its bytes. -/
theorem C7_counterexample :
    0x80 ≤ (Char.ofNat 0x2028).toNat
    ∧ encStr ⟨[Char.ofNat 0x2028]⟩ = "\"\\u2028\""
    ∧ encStr ⟨[Char.ofNat 0x2028]⟩ ≠ "\"" ++ (⟨[Char.ofNat 0x2028]⟩ : String) ++ "\"" := by
  refine ⟨by decide, by decide, by decide⟩

/-- C7 (amended): serializing then deserializing a comment is the identity
for every comment, and every non-ASCII character other than U+2028 and
U+2029 is copied to the serialized output unchanged; U+2028/U+2029 are the
two exceptions, escaped numerically by the HTML-escaping encoder. -/
theorem C7_roundtrip (s : String) :
    decodeJsonString (encStr s) = some s
    ∧ ∀ c ∈ s.data, 0x80 ≤ c.toNat → c.toNat ≠ 0x2028 → c.toNat ≠ 0x2029 →
        encChar c = [c] := by
  refine ⟨decodeJsonString_encStr s, ?_⟩
  intro c _ h80 h28 h29
  have h1 : c ≠ '"' := fun e => by subst e; exact absurd h80 (by decide)
  have h2 : c ≠ '\\' := fun e => by subst e; exact absurd h80 (by decide)
  have h3 : c ≠ '\n' := fun e => by subst e; exact absurd h80 (by decide)
  have h4 : c ≠ '\r' := fun e => by subst e; exact absurd h80 (by decide)
  have h5 : c ≠ '\t' := fun e => by subst e; exact absurd h80 (by decide)
  have h6 : ¬c.toNat < 32 := by omega
  have h7 : c ≠ '<' := fun e => by subst e; exact absurd h80 (by decide)
  have h8 : c ≠ '>' := fun e => by subst e; exact absurd h80 (by decide)
  have h9 : c ≠ '&' := fun e => by subst e; exact absurd h80 (by decide)
  unfold encChar
  rw [if_neg h1, if_neg h2, if_neg h3, if_neg h4, if_neg h5, if_neg h6, if_neg h7,
    if_neg h8, if_neg h9, if_neg h28, if_neg h29]

/-- Witness for C7 at a Chinese comment. -/
theorem C7_roundtrip_witness :
    decodeJsonString (encStr "用户") = some "用户" ∧ encChar '用' = ['用'] :=
  ⟨(C7_roundtrip "用户").1,
    (C7_roundtrip "用户").2 '用' (by decide) (by decide) (by decide) (by decide)⟩

/-- Counterexample to C2 as stated: executing a template from which all
four slots are absent does not fail — it succeeds and produces the
template's literal bytes. -/
theorem C2_counterexample :
    executeTmpl [Seg.lit "<p></p>"] ⟨"", "", "", ""⟩ = .ok "<p></p>"
    ∧ Seg.slotFiraCodeCSS ∉ [Seg.lit "<p></p>"]
    ∧ Seg.slotVisNetworkJS ∉ [Seg.lit "<p></p>"]
    ∧ Seg.slotRandomColorJS ∉ [Seg.lit "<p></p>"]
    ∧ Seg.slotGraphJSON ∉ [Seg.lit "<p></p>"] := by
  refine ⟨rfl, by decide, by decide, by decide, by decide⟩

/-- C2 (amended): the renderer never checks slot presence — `Execute`
succeeds for every parsed template, with or without the four slots, a
missing slot merely leaving its payload out; the embedded template is
guaranteed to contain all four slots by the repository's tests, so the
shipped pipeline renders successfully for every graph. -/
theorem C2_render_total (t : List Seg) (d : templateData) :
    executeTmpl t d = .ok (String.join (t.map (renderSeg d)))
    ∧ (executeTmpl t d).isOk = true
    ∧ Seg.slotFiraCodeCSS ∈ vizTmplModel ∧ Seg.slotVisNetworkJS ∈ vizTmplModel
    ∧ Seg.slotRandomColorJS ∈ vizTmplModel ∧ Seg.slotGraphJSON ∈ vizTmplModel :=
  ⟨rfl, rfl, by decide, by decide, by decide, by decide⟩

/-- C8: the hook runs the wrapped generator first and propagates its error
unchanged without writing; a rendering-stage error (asset load included)
is likewise propagated unchanged without writing; on success the rendered
buffer is written to `schema-viz.html` under the configured target
directory. -/
theorem C8_hook_sequencing (next : GenGraph → Except Err Unit) (assets : AssetFS)
    (tmpl : List Seg) (g : GenGraph) (target : String) (wcap : Option Nat) (fs : OsFS) :
    (∀ e, next g = .error e →
        VisualizeSchema next assets tmpl g target wcap fs = (some e, fs))
    ∧ (∀ e, next g = .ok () → generateHTML assets tmpl g = .error e →
        VisualizeSchema next assets tmpl g target wcap fs = (some e, fs))
    ∧ (∀ buf, next g = .ok () → generateHTML assets tmpl g = .ok buf →
        VisualizeSchema next assets tmpl g target none fs
          = (none, setFileFS fs (pathJoin target "schema-viz.html") buf)) := by
  refine ⟨?_, ?_, ?_⟩
  · intro e he
    unfold VisualizeSchema
    rw [he]
  · intro e h1 h2
    unfold VisualizeSchema
    rw [h1, h2]
  · intro buf h1 h2
    unfold VisualizeSchema
    rw [h1, h2]
    exact rfl

/-- Witness for C8: the success path writes the rendered page. -/
theorem C8_hook_sequencing_witness :
    VisualizeSchema nextOK assetsOK vizTmplModel gUserPet "ent" none fsEmpty
      = (none, setFileFS fsEmpty (pathJoin "ent" "schema-viz.html")
          (String.join (vizTmplModel.map (renderSeg
            ⟨"body", "var vis;", "var rc;", marshalJsGraph (toJsGraph gUserPet)⟩)))) :=
  (C8_hook_sequencing nextOK assetsOK vizTmplModel gUserPet "ent" none fsEmpty).2.2 _ rfl rfl

set_option maxRecDepth 8000 in
/-- Counterexample to C9 as stated: with a write capacity of one byte and a
two-byte page, the hook surfaces the write error, but a partial file — the
one-byte prefix, neither empty nor the complete buffer — remains on disk:
`os.WriteFile` truncates then writes in place, it is not atomic. -/
theorem C9_counterexample :
    (VisualizeSchema nextOK assetsOK [Seg.lit "AB"] gUserPet "" (some 1) fsEmpty).1
        = some Err.writeFailed
    ∧ getFileFS (VisualizeSchema nextOK assetsOK [Seg.lit "AB"] gUserPet "" (some 1) fsEmpty).2
        "schema-viz.html" = some "A"
    ∧ ("A" : String) ≠ "" ∧ ("A" : String) ≠ "AB" := by
  refine ⟨by decide, by decide, by decide, by decide⟩

/-- C9 (amended): when the write fails the error is surfaced to the
caller, but the write is not atomic: the file is left truncated to exactly
the prefix of the buffer the operating system accepted. -/
theorem C9_write_not_atomic (next : GenGraph → Except Err Unit) (assets : AssetFS)
    (tmpl : List Seg) (g : GenGraph) (target : String) (fs : OsFS) (k : Nat) (buf : String)
    (h1 : next g = .ok ()) (h2 : generateHTML assets tmpl g = .ok buf)
    (h3 : k < buf.length) :
    VisualizeSchema next assets tmpl g target (some k) fs
      = (some Err.writeFailed,
          setFileFS fs (pathJoin target "schema-viz.html") ⟨buf.data.take k⟩)
    ∧ ∃ rest, buf.data = buf.data.take k ++ rest := by
  constructor
  · unfold VisualizeSchema
    rw [h1, h2]
    show writeFileOS fs (pathJoin target "schema-viz.html") buf (some k) = _
    rw [writeFileOS.eq_def]
    dsimp only
    rw [if_neg (by omega : ¬buf.length ≤ k)]
  · exact ⟨buf.data.drop k, (List.take_append_drop k buf.data).symm⟩

/-- Witness for C9 at the one-byte-capacity scenario. -/
theorem C9_write_not_atomic_witness :
    VisualizeSchema nextOK assetsOK [Seg.lit "AB"] gUserPet "x" (some 1) fsEmpty
      = (some Err.writeFailed,
          setFileFS fsEmpty (pathJoin "x" "schema-viz.html") ⟨("AB" : String).data.take 1⟩)
    ∧ ∃ rest, ("AB" : String).data = ("AB" : String).data.take 1 ++ rest :=
  C9_write_not_atomic nextOK assetsOK [Seg.lit "AB"] gUserPet "x" fsEmpty 1 "AB" rfl rfl
    (by decide)
